import Mathlib

/-!
Formal model of the envoyage control-plane core.

This file gives a shallow embedding of the Go sources of the repository
and proves the documented properties about them:

* `internal/registry/registry.go` — the in-memory service registry
  (`Add`, `Remove`, `Update`, `Snapshot`, `OnChange`);
* `internal/xds/snapshot.go` — the per-node snapshot builder
  (`Build`, `makeCluster`, `makeVirtualHost`, `makeRouteConfig`,
  `makeHTTPListener`, `makeAddress`, `splitHostPort`) and the
  rebuild-all loop of the xDS server (`rebuildSnapshots`).

Maps are embedded as association lists keyed by the service name;
Go's `uint32` arithmetic in `splitHostPort` is embedded as `Nat`
arithmetic reduced modulo `2 ^ 32` and the registry's `uint64` version
counter as `Nat` arithmetic reduced modulo `2 ^ 64`.  Protobuf messages
are embedded as plain structures carrying the fields the builder sets.
-/

namespace Envoyage

/-- The `uint32` modulus: Go's port arithmetic in `splitHostPort` wraps here. -/
def u32 : Nat := 4294967296

/-- The `uint64` modulus: the registry's version counter wraps here. -/
def u64 : Nat := 18446744073709551616

/-! ## Registry (internal/registry/registry.go) -/

/-- A logical routable application (struct `Service`). -/
structure Service where
  name : String
  domain : String
  upstream : String
deriving DecidableEq

/-- State of the `Registry`: the `services` map (embedded as an association
list keyed by service name), the monotonic `version` counter, and whether an
`onChange` hook has been registered (the hook body itself is external to the
registry; the state only records its presence, which decides whether a
mutation fires it). -/
structure Registry where
  services : List (String × Service)
  version : Nat
  hookSet : Bool
deriving DecidableEq

/-- `registry.New()`: empty map, version `0`, no hook. -/
def Registry.new : Registry := ⟨[], 0, false⟩

/-- Error message of `fmt.Errorf("service %q already exists", name)`. -/
def errAlreadyExists (n : String) : String :=
  "service \"" ++ n ++ "\" already exists"

/-- Error message of `fmt.Errorf("service %q not found", name)`. -/
def errNotFound (n : String) : String :=
  "service \"" ++ n ++ "\" not found"

/-- Result of one registry mutation: the state after the call, the returned
error (if any) and whether the change hook was invoked. -/
structure MutResult where
  state : Registry
  err : Option String
  hookFired : Bool
deriving DecidableEq

/-- `Registry.Add`: insert if the name is absent, else fail with
already-exists; on success increment the version (`version++` on a `uint64`,
wrapping modulo `2 ^ 64`) and fire the hook. -/
def Registry.add (r : Registry) (svc : Service) : MutResult :=
  match r.services.lookup svc.name with
  | some _ => ⟨r, some (errAlreadyExists svc.name), false⟩
  | none =>
      ⟨⟨(svc.name, svc) :: r.services, (r.version + 1) % u64, r.hookSet⟩,
       none, r.hookSet⟩

/-- `Registry.Remove`: delete if present, else fail with not-found; on
success increment the version (wrapping modulo `2 ^ 64`) and fire the
hook. -/
def Registry.remove (r : Registry) (n : String) : MutResult :=
  match r.services.lookup n with
  | none => ⟨r, some (errNotFound n), false⟩
  | some _ =>
      ⟨⟨r.services.filter (fun p => !(p.1 == n)), (r.version + 1) % u64,
        r.hookSet⟩, none, r.hookSet⟩

/-- `Registry.Update`: replace if present, else fail with not-found; on
success increment the version (wrapping modulo `2 ^ 64`) and fire the
hook. -/
def Registry.update (r : Registry) (svc : Service) : MutResult :=
  match r.services.lookup svc.name with
  | none => ⟨r, some (errNotFound svc.name), false⟩
  | some _ =>
      ⟨⟨r.services.map (fun p => if p.1 = svc.name then (svc.name, svc) else p),
        (r.version + 1) % u64, r.hookSet⟩, none, r.hookSet⟩

/-- `Registry.Snapshot`: copies of all services plus the current version. -/
def Registry.snapshot (r : Registry) : List Service × Nat :=
  (r.services.map Prod.snd, r.version)

/-- `Registry.OnChange`: registers the (single) change hook. -/
def Registry.onChange (r : Registry) : Registry :=
  ⟨r.services, r.version, true⟩

/-- One observable operation against the registry. -/
inductive RegOp where
  | add (svc : Service)
  | remove (n : String)
  | update (svc : Service)
  | snapshotRead
  | register
deriving DecidableEq

/-- Whether an operation is a mutation (`Add`/`Remove`/`Update`). -/
def RegOp.isMutation : RegOp → Bool
  | .add _ => true
  | .remove _ => true
  | .update _ => true
  | .snapshotRead => false
  | .register => false

/-- Whether an operation targets the map entry of the given name. -/
def RegOp.touches : RegOp → String → Bool
  | .add svc, n => svc.name == n
  | .remove m, n => m == n
  | .update svc, n => svc.name == n
  | .snapshotRead, _ => false
  | .register, _ => false

/-- Execute one operation. Reads and hook registration leave the service map
and version untouched and never fire the hook. -/
def Registry.step (r : Registry) (op : RegOp) : MutResult :=
  match op with
  | .add svc => r.add svc
  | .remove n => r.remove n
  | .update svc => r.update svc
  | .snapshotRead => ⟨r, none, false⟩
  | .register => ⟨r.onChange, none, false⟩

/-- An operation is an accepted mutation when it is a mutation and the call
returned no error. -/
def Registry.accepted (r : Registry) (op : RegOp) : Bool :=
  op.isMutation && (r.step op).err.isNone

/-- Run a sequence of operations. -/
def Registry.run (r : Registry) : List RegOp → Registry
  | [] => r
  | op :: ops => ((r.step op).state).run ops

/-- The versions assigned by the accepted mutations of a run, in order. -/
def Registry.acceptedVersions (r : Registry) : List RegOp → List Nat
  | [] => []
  | op :: ops =>
      if r.accepted op
      then ((r.step op).state).version :: ((r.step op).state).acceptedVersions ops
      else ((r.step op).state).acceptedVersions ops

/-- Well-formedness of the embedded map: every key equals the name of the
stored service (Go writes `services[svc.Name] = svc`). -/
def Registry.WF (r : Registry) : Prop :=
  ∀ p ∈ r.services, p.1 = p.2.name

/-! ## Snapshot builder (internal/xds/snapshot.go) -/

/-- `homeEnvoyNodeID`: canonical identifier of the home Envoy instance. -/
def homeEnvoyNodeID : String := "envoyage-envoy-home"

/-- `homeEnvoyIngress`: address the edge Envoy uses to reach the home Envoy. -/
def homeEnvoyIngress : String := "envoy-home:10000"

/-- `uint32(c - '0')` for a rune `c`: the (possibly negative) `int32`
difference reinterpreted as `uint32`. -/
def goDigit (c : Char) : Nat := (c.toNat + (u32 - 48)) % u32

/-- One step of the port accumulation `port = port*10 + uint32(c-'0')` in
wrapping `uint32` arithmetic. -/
def portAccum (p : Nat) (c : Char) : Nat := (p * 10 + goDigit c) % u32

/-- The port loop of `splitHostPort` over the characters after the colon. -/
def parsePortGo (cs : List Char) : Nat := cs.foldl portAccum 0

/-- Split a character list at its rightmost colon, returning the parts
before and after it, or `none` when no colon occurs. -/
def rsplitColon : List Char → Option (List Char × List Char)
  | [] => none
  | c :: rest =>
      match rsplitColon rest with
      | some (h, t) => some (c :: h, t)
      | none => if c = ':' then some ([], rest) else none

/-- `splitHostPort`: scan from the right for `':'`; the prefix is the host
and the suffix is accumulated into the port; without a colon the whole
string is the host and the port is `0`. -/
def splitHostPort (upstream : String) : String × Nat :=
  match rsplitColon upstream.data with
  | some (h, t) => (String.mk h, parsePortGo t)
  | none => (upstream, 0)

/-- A socket address (protocol, host, port), as set by `makeAddress` and by
the listener construction. -/
structure Address where
  protocol : String
  address : String
  portValue : Nat
deriving DecidableEq

/-- `makeAddress`: a TCP socket address. -/
def makeAddress (host : String) (port : Nat) : Address :=
  ⟨"TCP", host, port⟩

/-- A load-balancing endpoint. -/
structure LbEndpoint where
  address : Address
deriving DecidableEq

/-- A locality group of load-balancing endpoints. -/
structure LocalityLbEndpoints where
  lbEndpoints : List LbEndpoint
deriving DecidableEq

/-- A cluster load assignment. -/
structure ClusterLoadAssignment where
  clusterName : String
  endpoints : List LocalityLbEndpoints
deriving DecidableEq

/-- An Envoy Cluster resource, with the fields `makeCluster` sets. -/
structure Cluster where
  name : String
  discoveryType : String
  connectTimeoutSeconds : Nat
  loadAssignment : ClusterLoadAssignment
deriving DecidableEq

/-- `makeCluster`: STRICT_DNS cluster with a 5 s connect timeout and a
single locality holding a single endpoint at the parsed upstream address. -/
def makeCluster (name upstream : String) : Cluster :=
  let hp := splitHostPort upstream
  ⟨name, "STRICT_DNS", 5, ⟨name, [⟨[⟨makeAddress hp.1 hp.2⟩]⟩]⟩⟩

/-- One route: the path specifier (the `Prefix` match) and the target
cluster of the route action. -/
structure RouteEntry where
  matchPath : String
  cluster : String
deriving DecidableEq

/-- An Envoy VirtualHost resource. -/
structure VirtualHost where
  name : String
  domains : List String
  routes : List RouteEntry
deriving DecidableEq

/-- `makeVirtualHost`: match the given domain, forward everything (path
match `/`) to the named cluster. -/
def makeVirtualHost (name domain clusterName : String) : VirtualHost :=
  ⟨name, [domain], [⟨"/", clusterName⟩]⟩

/-- An Envoy RouteConfiguration resource. -/
structure RouteConfiguration where
  name : String
  virtualHosts : List VirtualHost
deriving DecidableEq

/-- `makeRouteConfig`. -/
def makeRouteConfig (name : String) (virtualHosts : List VirtualHost) :
    RouteConfiguration :=
  ⟨name, virtualHosts⟩

/-- RDS configuration of the HTTP connection manager: routes come from ADS
(v3 API) under the given route-configuration name. -/
structure Rds where
  ads : Bool
  resourceApiVersion : String
  routeConfigName : String
deriving DecidableEq

/-- An HTTP filter; `typedConfigSupplied` records that the filter's typed
configuration was explicitly attached (the router filter's `Router` message,
marshalled through `anypb`). -/
structure HttpFilter where
  name : String
  typedConfigSupplied : Bool
deriving DecidableEq

/-- The HTTP connection manager; `statLabel` embeds the `StatPrefix` field. -/
structure HttpConnectionManager where
  statLabel : String
  rds : Rds
  httpFilters : List HttpFilter
deriving DecidableEq

/-- A network filter carrying the HTTP connection manager as its typed
configuration. -/
structure Filter where
  name : String
  typedConfig : HttpConnectionManager
deriving DecidableEq

/-- A filter chain. -/
structure FilterChain where
  filters : List Filter
deriving DecidableEq

/-- An Envoy Listener resource. -/
structure Listener where
  name : String
  address : Address
  filterChains : List FilterChain
deriving DecidableEq

/-- `wellknown.Router`. -/
def wellknownRouter : String := "envoy.filters.http.router"

/-- `wellknown.HTTPConnectionManager`. -/
def wellknownHCM : String := "envoy.filters.network.http_connection_manager"

/-- `makeHTTPListener`: a listener on `0.0.0.0:<port>` over TCP with a single
filter chain holding the HTTP connection manager, which takes its routes from
ADS under `routeConfigName` and carries the router filter with an explicit
typed configuration.  The Go function can only fail in `anypb.New` on the
fixed, well-formed `Router` and `HttpConnectionManager` messages, whose
marshalling always succeeds; the embedding keeps the fallible signature and
returns the constructed listener. -/
def makeHTTPListener (name : String) (port : Nat) (routeConfigName : String) :
    Except String Listener :=
  .ok ⟨name, makeAddress "0.0.0.0" port,
       [⟨[⟨wellknownHCM,
           ⟨"ingress_http", ⟨true, "V3", routeConfigName⟩,
            [⟨wellknownRouter, true⟩]⟩⟩]⟩]⟩

/-- A versioned xDS snapshot: the resource bundle `Build` assembles.  (The
cache layer additionally indexes each resource list by resource name.) -/
structure Snapshot where
  version : String
  clusters : List Cluster
  routeConfigs : List RouteConfiguration
  listeners : List Listener
deriving DecidableEq

/-- Names of the clusters of a snapshot. -/
def clusterNames (s : Snapshot) : List String :=
  s.clusters.map Cluster.name

/-- Every route of every virtual host targets a cluster of the snapshot. -/
def vhRoutesClosed (s : Snapshot) : Bool :=
  s.routeConfigs.all fun rc => rc.virtualHosts.all fun vh =>
    vh.routes.all fun rt => decide (rt.cluster ∈ clusterNames s)

/-- Every listener's RDS reference names a route configuration of the
snapshot. -/
def listenerRefsClosed (s : Snapshot) : Bool :=
  s.listeners.all fun l => l.filterChains.all fun fc =>
    fc.filters.all fun f =>
      decide (f.typedConfig.rds.routeConfigName ∈
        s.routeConfigs.map RouteConfiguration.name)

/-- The consistency validation `snap.Consistent()` run by `Build` before the
snapshot may reach the cache: all cross-resource references must resolve
inside the same snapshot. -/
def snapshotConsistent (s : Snapshot) : Bool :=
  vhRoutesClosed s && listenerRefsClosed s

/-- `SnapshotBuilder.Build`: the split-horizon translation of a service list
into a per-node snapshot.  For the home node each cluster targets the
service's own upstream; for every other node it targets `homeEnvoyIngress`.
The bundle is rejected unless the consistency validation passes. -/
def Build (nodeID : String) (services : List Service) (version : Nat) :
    Except String Snapshot :=
  let versionStr := "v" ++ toString version
  let isEdge := nodeID != homeEnvoyNodeID
  let clusters := services.map fun svc =>
    makeCluster ("cluster_" ++ svc.name)
      (if isEdge then homeEnvoyIngress else svc.upstream)
  let routes := services.map fun svc =>
    makeVirtualHost svc.name svc.domain ("cluster_" ++ svc.name)
  let routeConfig := makeRouteConfig "local_routes" routes
  match makeHTTPListener "listener_http" 10000 "local_routes" with
  | .error e => .error ("building listener: " ++ e)
  | .ok httpListener =>
      let snap : Snapshot := ⟨versionStr, clusters, [routeConfig], [httpListener]⟩
      if snapshotConsistent snap then .ok snap
      else .error "snapshot consistency check failed"

/-- The listener `Build` installs. -/
def theListener : Listener :=
  ⟨"listener_http", makeAddress "0.0.0.0" 10000,
   [⟨[⟨wellknownHCM,
       ⟨"ingress_http", ⟨true, "V3", "local_routes"⟩,
        [⟨wellknownRouter, true⟩]⟩⟩]⟩]⟩

/-- The resource bundle `Build` assembles before the consistency check. -/
def buildBundle (nodeID : String) (services : List Service) (version : Nat) :
    Snapshot :=
  ⟨"v" ++ toString version,
   services.map (fun svc =>
     makeCluster ("cluster_" ++ svc.name)
       (if nodeID != homeEnvoyNodeID then homeEnvoyIngress else svc.upstream)),
   [makeRouteConfig "local_routes"
     (services.map fun svc =>
       makeVirtualHost svc.name svc.domain ("cluster_" ++ svc.name))],
   [theListener]⟩

/-- The snapshot `Build` returns, extracted from the `Except`. -/
def buildOk (nodeID : String) (services : List Service) (version : Nat) :
    Snapshot :=
  match Build nodeID services version with
  | .ok snap => snap
  | .error _ => ⟨"", [], [], []⟩

/-! ## The rebuild-all loop (internal/xds/snapshot.go, `rebuildSnapshots`) -/

/-- The snapshot cache: one current snapshot per node identifier. -/
structure XdsCache where
  entries : List (String × Snapshot)
deriving DecidableEq

/-- The snapshot currently installed for a node. -/
def XdsCache.getSnapshot (c : XdsCache) (nodeID : String) : Option Snapshot :=
  c.entries.lookup nodeID

/-- Install a snapshot for a node, replacing any previous one. -/
def XdsCache.setSnapshot (c : XdsCache) (nodeID : String) (snap : Snapshot) :
    XdsCache :=
  ⟨(nodeID, snap) :: c.entries.filter (fun p => !(p.1 == nodeID))⟩

/-- The empty cache. -/
def emptyCache : XdsCache := ⟨[]⟩

/-- `Server.rebuildSnapshots`, parameterised by the per-node build result and
the install step (the function observes its callees only through their
results): walk the managed nodes in order; on the first build or install
error stop and return the wrapped error together with the cache as updated so
far; otherwise install every node's fresh snapshot. -/
def rebuildSnapshots
    (build : String → Except String Snapshot)
    (install : XdsCache → String → Snapshot → Except String XdsCache) :
    List String → XdsCache → XdsCache × Option String
  | [], cache => (cache, none)
  | nodeID :: rest, cache =>
      match build nodeID with
      | .error e =>
          (cache, some ("building snapshot for node " ++ nodeID ++ ": " ++ e))
      | .ok snap =>
          match install cache nodeID snap with
          | .error e =>
              (cache, some ("setting snapshot for node " ++ nodeID ++ ": " ++ e))
          | .ok cache2 => rebuildSnapshots build install rest cache2

/-- Models `cache.SetSnapshot`: the library call either returns an error or
installs the snapshot for the node.  Its internal error decision is
abstracted by the oracle `failAt` (consulted on the current cache, node and
snapshot); on success the cache update is `setSnapshot`.  Every install step
that either fails or installs the given snapshot is an instance. -/
def installModel (failAt : XdsCache → String → Snapshot → Option String)
    (c : XdsCache) (n : String) (s : Snapshot) : Except String XdsCache :=
  match failAt c n s with
  | some e => .error e
  | none => .ok (c.setSnapshot n s)

/-- The failure-free instance of the install step. -/
def installOk (c : XdsCache) (n : String) (s : Snapshot) :
    Except String XdsCache :=
  installModel (fun _ _ _ => none) c n s

/-- The rebuild loop with the embedded cache as install step. -/
def rebuildGo (build : String → Except String Snapshot)
    (nodeIDs : List String) (cache : XdsCache) : XdsCache × Option String :=
  rebuildSnapshots build installOk nodeIDs cache

/-- The rebuild loop instantiated with the real builder over a fixed
registry observation, as in `rebuildSnapshots`' body. -/
def rebuildAll (services : List Service) (version : Nat)
    (nodeIDs : List String) (cache : XdsCache) : XdsCache × Option String :=
  rebuildGo (fun n => Build n services version) nodeIDs cache

/-! ## Concrete fixtures -/

/-- A concrete service (scenario 2 of the spec). -/
def svc0 : Service := ⟨"web", "web.example.com", "web-a:5678"⟩

/-- A second concrete service. -/
def svc1 : Service := ⟨"cloud", "cloud.example.com", "web-b:5678"⟩

/-- A service on a name absent from `reg1`. -/
def ghostSvc : Service := ⟨"ghost", "ghost.example.com", "g:1"⟩

/-- The registry after adding `svc0` to the fresh registry. -/
def reg1 : Registry := (Registry.new.add svc0).state

/-- A per-node build function that fails for node `n1` and succeeds for
every other node. -/
def cexBuild : String → Except String Snapshot := fun n =>
  if n = "n1" then .error "boom" else .ok (buildBundle homeEnvoyNodeID [] 1)

/-- A per-node build function that succeeds for every node. -/
def okBuild : String → Except String Snapshot := fun _ =>
  .ok (buildBundle homeEnvoyNodeID [] 1)

/-- An install-failure oracle: `SetSnapshot` fails for node `b` only. -/
def failB : XdsCache → String → Snapshot → Option String := fun _ n _ =>
  if n = "b" then some "cache rejected the snapshot" else none

/-! ## Association-list lemmas -/

theorem lookup_cons_self {β : Type} {t : List (String × β)} {k : String}
    {b : β} : List.lookup k ((k, b) :: t) = some b := by
  simp [List.lookup]

theorem lookup_cons_ne {β : Type} {t : List (String × β)} {n k : String}
    {b : β} (h : n ≠ k) :
    List.lookup n ((k, b) :: t) = List.lookup n t := by
  have h' : (n == k) = false := beq_eq_false_iff_ne.mpr h
  simp [List.lookup, h']

theorem lookup_mem {β : Type} {l : List (String × β)} {n : String} {v : β}
    (h : List.lookup n l = some v) : (n, v) ∈ l := by
  induction l with
  | nil => simp [List.lookup] at h
  | cons p t ih =>
      obtain ⟨k, b⟩ := p
      by_cases hk : n = k
      · subst hk
        rw [lookup_cons_self] at h
        cases h
        exact List.mem_cons_self _ _
      · rw [lookup_cons_ne hk] at h
        exact List.mem_cons_of_mem _ (ih h)

theorem lookup_isSome_of_mem {β : Type} {l : List (String × β)} {n : String}
    {v : β} (h : (n, v) ∈ l) : (List.lookup n l).isSome = true := by
  induction l with
  | nil => simp at h
  | cons p t ih =>
      obtain ⟨k, b⟩ := p
      by_cases hk : n = k
      · subst hk; rw [lookup_cons_self]; rfl
      · rcases List.mem_cons.mp h with heq | hmem
        · cases heq; simp at hk
        · rw [lookup_cons_ne hk]
          exact ih hmem

theorem lookup_filter_ne {β : Type} {l : List (String × β)} {m n : String}
    (h : n ≠ m) :
    List.lookup n (l.filter fun p => !(p.1 == m)) = List.lookup n l := by
  induction l with
  | nil => simp
  | cons p t ih =>
      obtain ⟨k, b⟩ := p
      by_cases hk : k = m
      · subst hk
        have hstep : List.filter (fun p => !(p.1 == k))
            ((k, b) :: t) = List.filter (fun p => !(p.1 == k)) t := by
          simp
        rw [hstep, lookup_cons_ne h]
        exact ih
      · have hstep : List.filter (fun p => !(p.1 == m))
            ((k, b) :: t) = (k, b) :: List.filter (fun p => !(p.1 == m)) t := by
          simp [beq_eq_false_iff_ne.mpr hk]
        rw [hstep]
        by_cases hn : n = k
        · subst hn
          rw [lookup_cons_self, lookup_cons_self]
        · rw [lookup_cons_ne hn, lookup_cons_ne hn]
          exact ih

theorem lookup_filter_self {β : Type} {l : List (String × β)} {n : String} :
    List.lookup n (l.filter fun p => !(p.1 == n)) = none := by
  induction l with
  | nil => simp
  | cons p t ih =>
      obtain ⟨k, b⟩ := p
      by_cases hk : k = n
      · subst hk
        have hstep : List.filter (fun p => !(p.1 == k))
            ((k, b) :: t) = List.filter (fun p => !(p.1 == k)) t := by
          simp
        rw [hstep]
        exact ih
      · have hstep : List.filter (fun p => !(p.1 == n))
            ((k, b) :: t) = (k, b) :: List.filter (fun p => !(p.1 == n)) t := by
          simp [beq_eq_false_iff_ne.mpr hk]
        rw [hstep, lookup_cons_ne (fun e => hk e.symm)]
        exact ih

theorem lookup_map_replace_ne {l : List (String × Service)} {svc : Service}
    {n : String} (h : svc.name ≠ n) :
    List.lookup n
      (l.map fun p => if p.1 = svc.name then (svc.name, svc) else p) =
    List.lookup n l := by
  induction l with
  | nil => simp
  | cons p t ih =>
      obtain ⟨k, b⟩ := p
      rw [List.map_cons]
      by_cases hk : k = svc.name
      · rw [if_pos (show (k, b).1 = svc.name from hk)]
        have hn1 : n ≠ svc.name := fun e => h e.symm
        have hn2 : n ≠ k := fun e => hn1 (e.trans hk)
        rw [lookup_cons_ne hn1, lookup_cons_ne hn2]
        exact ih
      · rw [if_neg (show ¬ (k, b).1 = svc.name from hk)]
        by_cases hn : n = k
        · subst hn
          rw [lookup_cons_self, lookup_cons_self]
        · rw [lookup_cons_ne hn, lookup_cons_ne hn]
          exact ih

/-! ## Registry lemmas -/

theorem step_services_untouched (r : Registry) (op : RegOp) (n : String)
    (h : op.touches n = false) :
    List.lookup n ((r.step op).state).services = List.lookup n r.services := by
  cases op with
  | add svc =>
      have hne : svc.name ≠ n := by
        simpa [RegOp.touches] using h
      cases hl : r.services.lookup svc.name with
      | some v => simp [Registry.step, Registry.add, hl]
      | none =>
          have hn' : (n == svc.name) = false :=
            beq_eq_false_iff_ne.mpr (Ne.symm hne)
          simp [Registry.step, Registry.add, hl, List.lookup, hn']
  | remove m =>
      have hne : m ≠ n := by simpa [RegOp.touches] using h
      cases hl : r.services.lookup m with
      | none => simp [Registry.step, Registry.remove, hl]
      | some v =>
          simp [Registry.step, Registry.remove, hl,
            lookup_filter_ne (Ne.symm hne)]
  | update svc =>
      have hne : svc.name ≠ n := by simpa [RegOp.touches] using h
      cases hl : r.services.lookup svc.name with
      | none => simp [Registry.step, Registry.update, hl]
      | some v =>
          simp [Registry.step, Registry.update, hl,
            lookup_map_replace_ne hne]
  | snapshotRead => rfl
  | register => rfl

theorem run_services_untouched (ops : List RegOp) :
    ∀ (r : Registry) (n : String), (∀ op ∈ ops, op.touches n = false) →
      List.lookup n (r.run ops).services = List.lookup n r.services := by
  induction ops with
  | nil => intro r n _; rfl
  | cons op ops ih =>
      intro r n h
      have h0 : op.touches n = false := h op (List.mem_cons_self _ _)
      have h1 : ∀ o ∈ ops, RegOp.touches o n = false := fun o ho =>
        h o (List.mem_cons_of_mem _ ho)
      calc List.lookup n (r.run (op :: ops)).services
          = List.lookup n (((r.step op).state).run ops).services := rfl
        _ = List.lookup n ((r.step op).state).services := ih _ n h1
        _ = List.lookup n r.services := step_services_untouched r op n h0

theorem step_WF (r : Registry) (op : RegOp) (h : r.WF) :
    ((r.step op).state).WF := by
  cases op with
  | add svc =>
      cases hl : r.services.lookup svc.name with
      | some v => simpa [Registry.step, Registry.add, hl] using h
      | none =>
          intro p hp
          simp [Registry.step, Registry.add, hl] at hp
          rcases hp with hp | hp
          · simp [hp]
          · exact h p hp
  | remove m =>
      cases hl : r.services.lookup m with
      | none => simpa [Registry.step, Registry.remove, hl] using h
      | some v =>
          intro p hp
          simp [Registry.step, Registry.remove, hl] at hp
          exact h p hp.1
  | update svc =>
      cases hl : r.services.lookup svc.name with
      | none => simpa [Registry.step, Registry.update, hl] using h
      | some v =>
          intro p hp
          have hstate : ((r.step (RegOp.update svc)).state).services =
              r.services.map
                (fun q => if q.1 = svc.name then (svc.name, svc) else q) := by
            simp [Registry.step, Registry.update, hl]
          rw [hstate] at hp
          obtain ⟨q, hq, hpq⟩ := List.mem_map.mp hp
          by_cases hqk : q.1 = svc.name
          · rw [if_pos hqk] at hpq
            rw [← hpq]
          · rw [if_neg hqk] at hpq
            exact hpq ▸ h q hq
  | snapshotRead => exact h
  | register => exact h

theorem run_WF (ops : List RegOp) :
    ∀ r : Registry, r.WF → (r.run ops).WF := by
  induction ops with
  | nil => intro r h; exact h
  | cons op ops ih => intro r h; exact ih _ (step_WF r op h)

theorem step_version (r : Registry) (op : RegOp) :
    ((r.step op).state).version =
      if r.accepted op then (r.version + 1) % u64 else r.version := by
  cases op with
  | add svc =>
      cases hl : r.services.lookup svc.name with
      | some v =>
          simp [Registry.step, Registry.add, Registry.accepted,
            RegOp.isMutation, hl]
      | none =>
          simp [Registry.step, Registry.add, Registry.accepted,
            RegOp.isMutation, hl]
  | remove m =>
      cases hl : r.services.lookup m with
      | none =>
          simp [Registry.step, Registry.remove, Registry.accepted,
            RegOp.isMutation, hl]
      | some v =>
          simp [Registry.step, Registry.remove, Registry.accepted,
            RegOp.isMutation, hl]
  | update svc =>
      cases hl : r.services.lookup svc.name with
      | none =>
          simp [Registry.step, Registry.update, Registry.accepted,
            RegOp.isMutation, hl]
      | some v =>
          simp [Registry.step, Registry.update, Registry.accepted,
            RegOp.isMutation, hl]
  | snapshotRead =>
      simp [Registry.step, Registry.accepted, RegOp.isMutation]
  | register =>
      simp [Registry.step, Registry.accepted, RegOp.isMutation,
        Registry.onChange]

theorem mem_acceptedVersions_gt (ops : List RegOp) :
    ∀ (r : Registry) (v : Nat),
      r.version + (r.acceptedVersions ops).length < u64 →
      v ∈ r.acceptedVersions ops → r.version < v := by
  induction ops with
  | nil => intro r v _ h; simp [Registry.acceptedVersions] at h
  | cons op ops ih =>
      intro r v hlen h
      by_cases hacc : r.accepted op = true
      · rw [Registry.acceptedVersions, if_pos hacc] at h hlen
        rw [List.length_cons] at hlen
        have hv : ((r.step op).state).version = r.version + 1 := by
          rw [step_version, if_pos hacc]
          exact Nat.mod_eq_of_lt (by omega)
        rcases List.mem_cons.mp h with heq | hmem
        · omega
        · have hlen' : ((r.step op).state).version +
              (((r.step op).state).acceptedVersions ops).length < u64 := by
            omega
          have := ih _ v hlen' hmem
          omega
      · have hacc' : r.accepted op = false := by
          revert hacc; cases r.accepted op <;> simp
        have hv : ((r.step op).state).version = r.version := by
          rw [step_version, if_neg (by simp [hacc'])]
        rw [Registry.acceptedVersions, if_neg (by simp [hacc'])] at h hlen
        have := ih _ v (by omega) h
        omega

theorem acceptedVersions_pairwise (ops : List RegOp) :
    ∀ r : Registry, r.version + (r.acceptedVersions ops).length < u64 →
      (r.acceptedVersions ops).Pairwise (· < ·) := by
  induction ops with
  | nil => intro r _; simp [Registry.acceptedVersions]
  | cons op ops ih =>
      intro r hlen
      by_cases hacc : r.accepted op = true
      · rw [Registry.acceptedVersions, if_pos hacc] at hlen ⊢
        rw [List.length_cons] at hlen
        have hv : ((r.step op).state).version = r.version + 1 := by
          rw [step_version, if_pos hacc]
          exact Nat.mod_eq_of_lt (by omega)
        have hlen' : ((r.step op).state).version +
            (((r.step op).state).acceptedVersions ops).length < u64 := by
          omega
        refine List.Pairwise.cons ?_ (ih _ hlen')
        intro v hv'
        have := mem_acceptedVersions_gt ops _ v hlen' hv'
        omega
      · have hacc' : r.accepted op = false := by
          revert hacc; cases r.accepted op <;> simp
        have hv : ((r.step op).state).version = r.version := by
          rw [step_version, if_neg (by simp [hacc'])]
        rw [Registry.acceptedVersions, if_neg (by simp [hacc'])] at hlen ⊢
        exact ih _ (by omega)

/-! ## Claim theorems: registry -/

/-- A registry state whose `uint64` version counter is saturated. -/
def regWrap : Registry := ⟨[], u64 - 1, false⟩

/-- C3 counterexample: at a registry state whose version counter holds
`2 ^ 64 - 1`, the accepted `add` wraps the `uint64` counter to `0` instead
of increasing it by one — the version does not strictly increase by exactly
one on every accepted mutation. -/
theorem registry_version_wrap_cex :
    regWrap.accepted (RegOp.add svc0) = true
  ∧ ((regWrap.step (RegOp.add svc0)).state).version = 0
  ∧ ((regWrap.step (RegOp.add svc0)).state).version ≠ regWrap.version + 1
  ∧ ¬ regWrap.version < ((regWrap.step (RegOp.add svc0)).state).version := by
  refine ⟨by decide, by decide, by decide, by decide⟩

/-- C3 (amended): the version counter advances by `version++` on a `uint64`
— it becomes `(version + 1) mod 2 ^ 64` on each accepted mutation — and is
unchanged by snapshot reads, hook registration and rejected mutations; in
any run during which the counter does not overflow (initial version plus
number of accepted mutations below `2 ^ 64`, so in particular any feasible
run from a fresh registry), the versions assigned by the accepted mutations
are strictly increasing and pairwise distinct. -/
theorem registry_version_strict_mono :
    (∀ (r : Registry) (op : RegOp),
        (r.accepted op = true →
          ((r.step op).state).version = (r.version + 1) % u64)
      ∧ (r.accepted op = false →
          ((r.step op).state).version = r.version))
  ∧ (∀ (r : Registry) (ops : List RegOp),
      r.version + (r.acceptedVersions ops).length < u64 →
      (r.acceptedVersions ops).Pairwise (· < ·)) := by
  constructor
  · intro r op
    constructor
    · intro h; rw [step_version, if_pos h]
    · intro h; rw [step_version, if_neg (by simp [h])]
  · intro r ops
    exact acceptedVersions_pairwise ops r

/-- C3 witness: on the fresh registry an accepted `add` moves the version
from `0` to `1 mod 2 ^ 64`, and a concrete overflow-free run yields
strictly increasing accepted versions. -/
theorem registry_version_strict_mono_witness :
    ((Registry.new.step (RegOp.add svc0)).state).version =
      (Registry.new.version + 1) % u64
  ∧ (Registry.new.acceptedVersions
      [RegOp.add svc0, RegOp.snapshotRead, RegOp.add svc1]).Pairwise
      (· < ·) :=
  ⟨(registry_version_strict_mono.1 Registry.new (RegOp.add svc0)).1
      (by decide),
   registry_version_strict_mono.2 Registry.new
      [RegOp.add svc0, RegOp.snapshotRead, RegOp.add svc1] (by decide)⟩

/-- C4: adding a present name fails with the already-exists error and leaves
the state untouched without firing the hook; removing or updating an absent
name fails with the not-found error, likewise with no state change and no
hook invocation. -/
theorem registry_rejected_mutations (r : Registry) (svc : Service)
    (n : String) :
    ((r.services.lookup svc.name).isSome = true →
        r.add svc = ⟨r, some (errAlreadyExists svc.name), false⟩)
  ∧ (r.services.lookup n = none →
        r.remove n = ⟨r, some (errNotFound n), false⟩)
  ∧ (r.services.lookup svc.name = none →
        r.update svc = ⟨r, some (errNotFound svc.name), false⟩) := by
  refine ⟨?_, ?_, ?_⟩
  · intro h
    cases hl : r.services.lookup svc.name with
    | none => rw [hl] at h; simp at h
    | some v => simp [Registry.add, hl]
  · intro h
    simp [Registry.remove, h]
  · intro h
    simp [Registry.update, h]

/-- C4 witness: on a registry holding `web`, re-adding `web` is rejected
with state, version and hook untouched; removing and updating the absent
`ghost` are rejected likewise. -/
theorem registry_rejected_mutations_witness :
    reg1.add svc0 = ⟨reg1, some (errAlreadyExists "web"), false⟩
  ∧ reg1.remove "ghost" = ⟨reg1, some (errNotFound "ghost"), false⟩
  ∧ reg1.update ghostSvc = ⟨reg1, some (errNotFound "ghost"), false⟩ :=
  ⟨(registry_rejected_mutations reg1 svc0 "ghost").1 (by decide),
   (registry_rejected_mutations reg1 svc0 "ghost").2.1 (by decide),
   (registry_rejected_mutations reg1 ghostSvc "ghost").2.2 (by decide)⟩

/-- C5: after a successful `add` of `s`, every later snapshot read contains
`s` as long as no subsequent operation mutates the entry of `s.name`; after
a successful `remove` of `n`, no later snapshot read contains a service
named `n` as long as no subsequent operation mutates that entry. -/
theorem registry_visibility (r : Registry) (s : Service) (n : String)
    (ops : List RegOp) :
    ((r.add s).err = none → (∀ op ∈ ops, op.touches s.name = false) →
        s ∈ (((r.add s).state).run ops).snapshot.1)
  ∧ (r.WF → (r.remove n).err = none → (∀ op ∈ ops, op.touches n = false) →
        ∀ t ∈ (((r.remove n).state).run ops).snapshot.1, t.name ≠ n) := by
  constructor
  · intro herr hops
    cases hl : r.services.lookup s.name with
    | some v => simp [Registry.add, hl] at herr
    | none =>
        have hstate : (r.add s).state =
            ⟨(s.name, s) :: r.services, (r.version + 1) % u64, r.hookSet⟩ := by
          simp [Registry.add, hl]
        have hlook : List.lookup s.name ((r.add s).state).services = some s := by
          rw [hstate]; exact lookup_cons_self
        have hrun :
            List.lookup s.name (((r.add s).state).run ops).services = some s := by
          rw [run_services_untouched ops _ s.name hops, hlook]
        have hmem := lookup_mem hrun
        exact List.mem_map.mpr ⟨(s.name, s), hmem, rfl⟩
  · intro hwf herr hops t ht
    cases hl : r.services.lookup n with
    | none => simp [Registry.remove, hl] at herr
    | some v =>
        have hstate : (r.remove n).state =
            ⟨r.services.filter (fun p => !(p.1 == n)), (r.version + 1) % u64,
             r.hookSet⟩ := by
          simp [Registry.remove, hl]
        have hlook : List.lookup n ((r.remove n).state).services = none := by
          rw [hstate]; exact lookup_filter_self
        have hrun :
            List.lookup n (((r.remove n).state).run ops).services = none := by
          rw [run_services_untouched ops _ n hops, hlook]
        have hwf1 : ((r.remove n).state).WF := step_WF r (RegOp.remove n) hwf
        have hwf2 : (((r.remove n).state).run ops).WF := run_WF ops _ hwf1
        obtain ⟨p, hp, hpt⟩ := List.mem_map.mp ht
        have hkey : p.1 = t.name := by rw [hwf2 p hp, hpt]
        intro hcontra
        have hpn : p = (n, t) := by
          obtain ⟨k, b⟩ := p
          simp at hpt hkey
          rw [hpt, hkey, hcontra]
        rw [hpn] at hp
        have := lookup_isSome_of_mem hp
        rw [hrun] at this
        simp at this

/-- C5 witness: after adding `web` to the fresh registry, a run of
non-`web` operations still snapshots `web`; after removing `web` from
`reg1`, the snapshot holds no service named `web`. -/
theorem registry_visibility_witness :
    svc0 ∈ (((Registry.new.add svc0).state).run
        [RegOp.register, RegOp.add svc1, RegOp.snapshotRead]).snapshot.1
  ∧ (∀ t ∈ (((reg1.remove "web").state).run
        [RegOp.snapshotRead]).snapshot.1, t.name ≠ "web") :=
  ⟨(registry_visibility Registry.new svc0 "x"
      [RegOp.register, RegOp.add svc1, RegOp.snapshotRead]).1
      (by decide) (by decide),
   (registry_visibility reg1 svc0 "web" [RegOp.snapshotRead]).2
      (by show ∀ p ∈ reg1.services, p.1 = p.2.name; decide)
      (by decide) (by decide)⟩

/-! ## Snapshot-builder lemmas -/

theorem Build_unfold (nodeID : String) (services : List Service)
    (version : Nat) :
    Build nodeID services version =
      if snapshotConsistent (buildBundle nodeID services version)
      then Except.ok (buildBundle nodeID services version)
      else Except.error "snapshot consistency check failed" := rfl

theorem bundle_clusterNames (nodeID : String) (services : List Service)
    (version : Nat) :
    clusterNames (buildBundle nodeID services version) =
      services.map (fun svc => "cluster_" ++ svc.name) := by
  unfold clusterNames buildBundle
  rw [List.map_map]
  rfl

theorem bundle_consistent (nodeID : String) (services : List Service)
    (version : Nat) :
    snapshotConsistent (buildBundle nodeID services version) = true := by
  rw [snapshotConsistent, Bool.and_eq_true]
  constructor
  · rw [vhRoutesClosed, List.all_eq_true]
    intro rc hrc
    have hrc' : rc = makeRouteConfig "local_routes"
        (services.map fun svc =>
          makeVirtualHost svc.name svc.domain ("cluster_" ++ svc.name)) := by
      simpa [buildBundle] using hrc
    subst hrc'
    rw [List.all_eq_true]
    intro vh hvh
    obtain ⟨svc, hsvc, hvh'⟩ := List.mem_map.mp hvh
    subst hvh'
    rw [List.all_eq_true]
    intro rt hrt
    have hrt' : rt = ⟨"/", "cluster_" ++ svc.name⟩ := by
      simpa [makeVirtualHost] using hrt
    subst hrt'
    rw [decide_eq_true_eq, bundle_clusterNames]
    exact List.mem_map_of_mem _ hsvc
  · rw [listenerRefsClosed, List.all_eq_true]
    intro l hl
    have hl' : l = theListener := by simpa [buildBundle] using hl
    subst hl'
    simp [theListener, buildBundle, makeRouteConfig]

theorem Build_eq_ok (nodeID : String) (services : List Service)
    (version : Nat) :
    Build nodeID services version =
      Except.ok (buildBundle nodeID services version) := by
  rw [Build_unfold, bundle_consistent]
  rfl

theorem Build_ok_inv {nodeID : String} {services : List Service}
    {version : Nat} {snap : Snapshot}
    (h : Build nodeID services version = Except.ok snap) :
    snap = buildBundle nodeID services version := by
  rw [Build_eq_ok] at h
  exact (Except.ok.inj h).symm

theorem buildOk_eq (nodeID : String) (services : List Service)
    (version : Nat) :
    buildOk nodeID services version = buildBundle nodeID services version := by
  rw [buildOk, Build_eq_ok]

/-! ## Claim theorems: snapshot builder -/

/-- C1: every built snapshot holds, for each input service `s`, a cluster
named `cluster_<s.name>` whose single endpoint is the parsed `s.upstream`
when building for the home node and the home ingress `envoy-home:10000` for
every other node; the per-service virtual host (name, domain list, path
match `/` and target cluster) is the same regardless of the node, and across
any two nodes the route configurations, the listeners and the cluster names
coincide. -/
theorem build_split_horizon (nodeID : String) (services : List Service)
    (version : Nat) (snap : Snapshot) (s : Service)
    (hb : Build nodeID services version = Except.ok snap)
    (hs : s ∈ services) :
    (∃ c ∈ snap.clusters, c.name = "cluster_" ++ s.name ∧
        c.loadAssignment.endpoints =
          [⟨[⟨if nodeID = homeEnvoyNodeID
              then makeAddress (splitHostPort s.upstream).1
                     (splitHostPort s.upstream).2
              else makeAddress "envoy-home" 10000⟩]⟩])
  ∧ (∃ rc ∈ snap.routeConfigs, ∃ vh ∈ rc.virtualHosts,
        vh = makeVirtualHost s.name s.domain ("cluster_" ++ s.name))
  ∧ (∀ (nodeID2 : String) (snap2 : Snapshot),
        Build nodeID2 services version = Except.ok snap2 →
        snap2.routeConfigs = snap.routeConfigs
      ∧ snap2.listeners = snap.listeners
      ∧ snap2.clusters.map Cluster.name = snap.clusters.map Cluster.name) := by
  have hsnap := Build_ok_inv hb
  subst hsnap
  refine ⟨?_, ?_, ?_⟩
  · refine ⟨makeCluster ("cluster_" ++ s.name)
      (if nodeID != homeEnvoyNodeID then homeEnvoyIngress else s.upstream),
      List.mem_map_of_mem _ hs, rfl, ?_⟩
    by_cases hn : nodeID = homeEnvoyNodeID
    · have hbne : (nodeID != homeEnvoyNodeID) = false := by
        simp [hn]
      rw [hbne, if_pos hn]
      rfl
    · have hbne : (nodeID != homeEnvoyNodeID) = true := by
        simp [hn]
      rw [hbne, if_neg hn]
      have hsplit : splitHostPort homeEnvoyIngress = ("envoy-home", 10000) := by
        decide
      simp [makeCluster, hsplit]
  · refine ⟨makeRouteConfig "local_routes"
      (services.map fun svc =>
        makeVirtualHost svc.name svc.domain ("cluster_" ++ svc.name)),
      by simp [buildBundle, theListener],
      makeVirtualHost s.name s.domain ("cluster_" ++ s.name),
      List.mem_map_of_mem _ hs, rfl⟩
  · intro nodeID2 snap2 hb2
    have hsnap2 := Build_ok_inv hb2
    subst hsnap2
    refine ⟨rfl, rfl, ?_⟩
    have h1 := bundle_clusterNames nodeID2 services version
    have h2 := bundle_clusterNames nodeID services version
    rw [clusterNames] at h1 h2
    rw [h1, h2]

/-- C1 witness: building for the edge node `envoyage-envoy-vps` over the
single service `web`, the cluster `cluster_web` targets the home ingress
`envoy-home:10000`. -/
theorem build_split_horizon_witness :
    ∃ c ∈ (buildOk "envoyage-envoy-vps" [svc0] 1).clusters,
      c.name = "cluster_" ++ svc0.name ∧
      c.loadAssignment.endpoints = [⟨[⟨makeAddress "envoy-home" 10000⟩]⟩] :=
  (build_split_horizon "envoyage-envoy-vps" [svc0] 1
    (buildOk "envoyage-envoy-vps" [svc0] 1) svc0 rfl
    (List.mem_singleton.mpr rfl)).1

/-- C6: a built snapshot carries version string `v<N>`, one cluster per
service (in order, named `cluster_<name>`), exactly one route configuration
named `local_routes` with one virtual host per service, and exactly one
listener `listener_http` on TCP `0.0.0.0:10000` whose HTTP connection
manager reads its routes from ADS under `local_routes`; for the empty
service list there are no clusters and no virtual hosts. -/
theorem build_snapshot_shape (nodeID : String) (services : List Service)
    (version : Nat) (snap : Snapshot)
    (hb : Build nodeID services version = Except.ok snap) :
    snap.version = "v" ++ toString version
  ∧ snap.clusters.length = services.length
  ∧ snap.clusters.map Cluster.name =
      services.map (fun s => "cluster_" ++ s.name)
  ∧ (∃ rc, snap.routeConfigs = [rc] ∧ rc.name = "local_routes" ∧
        rc.virtualHosts.length = services.length ∧
        rc.virtualHosts.map VirtualHost.name = services.map Service.name)
  ∧ (∃ l fc f, snap.listeners = [l] ∧ l.name = "listener_http" ∧
        l.address = makeAddress "0.0.0.0" 10000 ∧
        l.filterChains = [fc] ∧ fc.filters = [f] ∧
        f.name = wellknownHCM ∧
        f.typedConfig.statLabel = "ingress_http" ∧
        f.typedConfig.rds = ⟨true, "V3", "local_routes"⟩ ∧
        f.typedConfig.httpFilters = [⟨wellknownRouter, true⟩])
  ∧ (services = [] → snap.clusters = [] ∧
        ∀ rc ∈ snap.routeConfigs, rc.virtualHosts = []) := by
  have hsnap := Build_ok_inv hb
  subst hsnap
  refine ⟨rfl, ?_, ?_, ?_, ?_, ?_⟩
  · exact List.length_map _ _
  · have h := bundle_clusterNames nodeID services version
    rw [clusterNames] at h
    exact h
  · refine ⟨_, rfl, rfl, ?_, ?_⟩
    · exact List.length_map _ _
    · show List.map VirtualHost.name
          (List.map (fun svc =>
            makeVirtualHost svc.name svc.domain ("cluster_" ++ svc.name))
            services) = List.map Service.name services
      rw [List.map_map]
      rfl
  · exact ⟨theListener, _, _, rfl, rfl, rfl, rfl, rfl, rfl, rfl, rfl, rfl⟩
  · intro hempty
    subst hempty
    refine ⟨rfl, ?_⟩
    intro rc hrc
    have hrc' : rc = makeRouteConfig "local_routes" [] := by
      simpa [buildBundle] using hrc
    rw [hrc']
    rfl

/-- C6 witness: for the home node, the empty service list and version `0`,
the snapshot has version `v0`, no clusters and no virtual hosts. -/
theorem build_snapshot_shape_witness :
    (buildOk homeEnvoyNodeID [] 0).version = "v" ++ toString 0
  ∧ ((buildOk homeEnvoyNodeID [] 0).clusters = [] ∧
      ∀ rc ∈ (buildOk homeEnvoyNodeID [] 0).routeConfigs,
        rc.virtualHosts = []) :=
  ⟨(build_snapshot_shape homeEnvoyNodeID [] 0 (buildOk homeEnvoyNodeID [] 0)
      rfl).1,
   (build_snapshot_shape homeEnvoyNodeID [] 0 (buildOk homeEnvoyNodeID [] 0)
      rfl).2.2.2.2.2 rfl⟩

/-- C7: every snapshot `Build` returns passes the consistency validation and
satisfies referential closure — each route of each virtual host of each
route configuration targets a cluster present in the same snapshot (by
`Build`'s definition a bundle failing the validation is returned as an error
and never reaches the cache). -/
theorem build_referential_closure (nodeID : String) (services : List Service)
    (version : Nat) (snap : Snapshot)
    (hb : Build nodeID services version = Except.ok snap) :
    snapshotConsistent snap = true
  ∧ ∀ rc ∈ snap.routeConfigs, ∀ vh ∈ rc.virtualHosts, ∀ rt ∈ vh.routes,
      ∃ c ∈ snap.clusters, c.name = rt.cluster := by
  have hsnap := Build_ok_inv hb
  subst hsnap
  refine ⟨bundle_consistent nodeID services version, ?_⟩
  intro rc hrc vh hvh rt hrt
  have hrc' : rc = makeRouteConfig "local_routes"
      (services.map fun svc =>
        makeVirtualHost svc.name svc.domain ("cluster_" ++ svc.name)) := by
    simpa [buildBundle] using hrc
  subst hrc'
  obtain ⟨svc, hsvc, hvh'⟩ := List.mem_map.mp hvh
  subst hvh'
  have hrt' : rt = ⟨"/", "cluster_" ++ svc.name⟩ := by
    simpa [makeVirtualHost] using hrt
  subst hrt'
  exact ⟨makeCluster ("cluster_" ++ svc.name)
    (if nodeID != homeEnvoyNodeID then homeEnvoyIngress else svc.upstream),
    List.mem_map_of_mem _ hsvc, rfl⟩

/-- C7 witness: the home snapshot over the service `web` passes the
consistency validation. -/
theorem build_referential_closure_witness :
    snapshotConsistent (buildOk homeEnvoyNodeID [svc0] 2) = true :=
  (build_referential_closure homeEnvoyNodeID [svc0] 2
    (buildOk homeEnvoyNodeID [svc0] 2) rfl).1

/-- C9: `Build` is deterministic — two calls with equal node identifier,
equal service list and equal version return equal snapshots (the embedded
builder reads nothing but its arguments). -/
theorem build_deterministic (n1 n2 : String) (s1 s2 : List Service)
    (v1 v2 : Nat) (hn : n1 = n2) (hs : s1 = s2) (hv : v1 = v2) :
    Build n1 s1 v1 = Build n2 s2 v2 := by
  subst hn; subst hs; subst hv; rfl

/-- C9 witness: two identical concrete builds agree. -/
theorem build_deterministic_witness :
    Build homeEnvoyNodeID [svc0, svc1] 3 = Build homeEnvoyNodeID [svc0, svc1] 3 :=
  build_deterministic homeEnvoyNodeID homeEnvoyNodeID [svc0, svc1]
    [svc0, svc1] 3 3 rfl rfl rfl

/-- C10: `Build` never returns an error — the listener's fixed messages
always marshal and the assembled bundle always passes the consistency
validation, because each virtual host's target cluster is created in the
same iteration as the virtual host. -/
theorem build_never_fails (nodeID : String) (services : List Service)
    (version : Nat) :
    ∃ snap, Build nodeID services version = Except.ok snap :=
  ⟨buildBundle nodeID services version, Build_eq_ok nodeID services version⟩

/-! ## Rebuild-loop lemmas and claims -/

theorem getSnapshot_set (c : XdsCache) (m n : String) (s : Snapshot) :
    (c.setSnapshot m s).getSnapshot n =
      if n = m then some s else c.getSnapshot n := by
  unfold XdsCache.setSnapshot XdsCache.getSnapshot
  by_cases h : n = m
  · subst h
    rw [if_pos rfl, lookup_cons_self]
  · rw [if_neg h, lookup_cons_ne h, lookup_filter_ne h]

/-- C2 counterexample: with a per-node build that fails for node `n1` but
succeeds for node `n2`, the rebuild loop over `[n1, n2]` returns the wrapped
error immediately and `n2` never receives its fresh snapshot, although its
own build and install would have succeeded — the loop does not continue past
the failed node. -/
theorem rebuild_no_continue_cex :
    rebuildGo cexBuild ["n1", "n2"] emptyCache =
      (emptyCache, some "building snapshot for node n1: boom")
  ∧ (cexBuild "n2").isOk = true
  ∧ ((rebuildGo cexBuild ["n1", "n2"] emptyCache).1).getSnapshot "n2" =
      none := by
  refine ⟨by decide, rfl, by decide⟩

/-- C2 (amended): when building or installing the snapshot for one managed
node fails, `rebuildSnapshots` stops at the first failing node (the failure
being a build error or a `SetSnapshot` error) and returns the wrapped error
(which the registry-change handler logs): the nodes before it in the list
have already received their fresh snapshots, while the failed node and every
node not yet processed keep their previously installed snapshots — in
particular the failed node's previous snapshot remains authoritative. -/
theorem rebuild_failure_aborts (build : String → Except String Snapshot)
    (failAt : XdsCache → String → Snapshot → Option String) :
    ∀ (nodeIDs : List String) (cache : XdsCache) (e : String),
    (rebuildSnapshots build (installModel failAt) nodeIDs cache).2 = some e →
    ∃ pre n post, nodeIDs = pre ++ n :: post
      ∧ (∀ m ∈ pre, (build m).isOk = true)
      ∧ ((build n).isOk = false
          ∨ ∃ s e2, build n = Except.ok s ∧
              failAt
                ((rebuildSnapshots build (installModel failAt)
                  nodeIDs cache).1) n s = some e2)
      ∧ (∀ m : String, m ∉ pre →
          ((rebuildSnapshots build (installModel failAt)
            nodeIDs cache).1).getSnapshot m = cache.getSnapshot m)
      ∧ (∀ m ∈ pre, ∃ s, build m = Except.ok s ∧
          ((rebuildSnapshots build (installModel failAt)
            nodeIDs cache).1).getSnapshot m = some s) := by
  intro nodeIDs
  induction nodeIDs with
  | nil =>
      intro cache e h
      simp [rebuildSnapshots] at h
  | cons nodeID rest ih =>
      intro cache e h
      cases hb : build nodeID with
      | error eb =>
          have hres : rebuildSnapshots build (installModel failAt)
              (nodeID :: rest) cache =
              (cache, some ("building snapshot for node " ++ nodeID ++
                ": " ++ eb)) := by
            simp [rebuildSnapshots, hb]
          refine ⟨[], nodeID, rest, rfl, by simp,
            Or.inl (by rw [hb]; rfl), ?_, by simp⟩
          intro m _
          rw [hres]
      | ok s =>
          cases hf : failAt cache nodeID s with
          | some e2 =>
              have hres : rebuildSnapshots build (installModel failAt)
                  (nodeID :: rest) cache =
                  (cache, some ("setting snapshot for node " ++ nodeID ++
                    ": " ++ e2)) := by
                simp [rebuildSnapshots, hb, installModel, hf]
              refine ⟨[], nodeID, rest, rfl, by simp,
                Or.inr ⟨s, e2, hb, ?_⟩, ?_, by simp⟩
              · rw [hres]
                exact hf
              · intro m _
                rw [hres]
          | none =>
              have hres : rebuildSnapshots build (installModel failAt)
                  (nodeID :: rest) cache =
                  rebuildSnapshots build (installModel failAt) rest
                    (cache.setSnapshot nodeID s) := by
                simp [rebuildSnapshots, hb, installModel, hf]
              rw [hres] at h
              obtain ⟨pre, n, post, hlist, hpreok, hnfail, huntouched,
                hfresh⟩ := ih (cache.setSnapshot nodeID s) e h
              refine ⟨nodeID :: pre, n, post, by rw [hlist]; rfl, ?_, ?_,
                ?_, ?_⟩
              · intro m hm
                rcases List.mem_cons.mp hm with rfl | hm'
                · rw [hb]; rfl
                · exact hpreok m hm'
              · rcases hnfail with hl | ⟨s', e2, hbs, hfs⟩
                · exact Or.inl hl
                · exact Or.inr ⟨s', e2, hbs, by rw [hres]; exact hfs⟩
              · intro m hm
                have hm1 : m ≠ nodeID :=
                  fun e' => hm (e' ▸ List.mem_cons_self _ _)
                have hm2 : m ∉ pre := fun h' => hm (List.mem_cons_of_mem _ h')
                rw [hres, huntouched m hm2, getSnapshot_set, if_neg hm1]
              · intro m hm
                rcases List.mem_cons.mp hm with rfl | hm'
                · by_cases hmp : m ∈ pre
                  · obtain ⟨s', hs', hg⟩ := hfresh m hmp
                    exact ⟨s', hs', by rw [hres]; exact hg⟩
                  · refine ⟨s, hb, ?_⟩
                    rw [hres, huntouched m hmp, getSnapshot_set, if_pos rfl]
                · obtain ⟨s', hs', hg⟩ := hfresh m hm'
                  exact ⟨s', hs', by rw [hres]; exact hg⟩

/-- C2 witness: applying the abort theorem to a three-node run in which
every build succeeds but `SetSnapshot` fails for node `b`: the run aborts at
`b`, node `a` (before the failure) holds its fresh snapshot, and `b` and `c`
keep their previous cache entries. -/
theorem rebuild_failure_aborts_witness :
    ∃ pre n post, ["a", "b", "c"] = pre ++ n :: post
      ∧ (∀ m ∈ pre, (okBuild m).isOk = true)
      ∧ ((okBuild n).isOk = false
          ∨ ∃ s e2, okBuild n = Except.ok s ∧
              failB
                ((rebuildSnapshots okBuild (installModel failB)
                  ["a", "b", "c"] emptyCache).1) n s = some e2)
      ∧ (∀ m : String, m ∉ pre →
          ((rebuildSnapshots okBuild (installModel failB)
            ["a", "b", "c"] emptyCache).1).getSnapshot m =
            emptyCache.getSnapshot m)
      ∧ (∀ m ∈ pre, ∃ s, okBuild m = Except.ok s ∧
          ((rebuildSnapshots okBuild (installModel failB)
            ["a", "b", "c"] emptyCache).1).getSnapshot m = some s) :=
  rebuild_failure_aborts okBuild failB ["a", "b", "c"] emptyCache
    "setting snapshot for node b: cache rejected the snapshot" (by decide)

/-! ## splitHostPort lemmas and claims -/

/-- One step of exact decimal accumulation (no wrap). -/
def decAccum (q : Nat) (c : Char) : Nat := q * 10 + (c.toNat - 48)

/-- The exact decimal value of a digit string. -/
def decimalValue (cs : List Char) : Nat := cs.foldl decAccum 0

theorem rsplitColon_eq_none {cs : List Char} (h : ':' ∉ cs) :
    rsplitColon cs = none := by
  induction cs with
  | nil => rfl
  | cons c rest ih =>
      have hc : ¬ c = ':' := fun e => h (e ▸ List.mem_cons_self _ _)
      have hr : ':' ∉ rest := fun e => h (List.mem_cons_of_mem _ e)
      simp [rsplitColon, ih hr, hc]

theorem rsplitColon_last (suf : List Char) (hs : ':' ∉ suf) :
    ∀ pre, rsplitColon (pre ++ ':' :: suf) = some (pre, suf) := by
  intro pre
  induction pre with
  | nil => simp [rsplitColon, rsplitColon_eq_none hs]
  | cons c pre ih => simp [rsplitColon, ih]

theorem parse_digits_aux (cs : List Char)
    (hd : ∀ c ∈ cs, 48 ≤ c.toNat ∧ c.toNat ≤ 57) :
    ∀ q : Nat, List.foldl portAccum (q % u32) cs =
      (List.foldl decAccum q cs) % u32 := by
  induction cs with
  | nil => intro q; rfl
  | cons c cs ih =>
      intro q
      have hc := hd c (List.mem_cons_self _ _)
      have hd' : ∀ x ∈ cs, 48 ≤ x.toNat ∧ x.toNat ≤ 57 :=
        fun x hx => hd x (List.mem_cons_of_mem _ hx)
      have hstep : portAccum (q % u32) c = (decAccum q c) % u32 := by
        unfold portAccum goDigit decAccum u32
        omega
      rw [List.foldl_cons, List.foldl_cons, hstep, ih hd']

theorem parsePortGo_digits (cs : List Char)
    (hd : ∀ c ∈ cs, 48 ≤ c.toNat ∧ c.toNat ≤ 57) :
    parsePortGo cs = decimalValue cs % u32 := by
  have h := parse_digits_aux cs hd 0
  simpa [parsePortGo, decimalValue] using h

/-- C8 counterexample: on `"h:4294967296"` the suffix is the decimal
numeral of `2 ^ 32`, yet the returned port is `0` because the accumulation
wraps in 32-bit arithmetic — the port is not the unsigned decimal value of
the suffix. -/
theorem splitHostPort_overflow_cex :
    splitHostPort "h:4294967296" = ("h", 0) ∧ (0 : Nat) ≠ 4294967296 :=
  ⟨by decide, by decide⟩

/-- C8 (amended): `splitHostPort` splits on the rightmost `':'`, returning
the prefix as the host; the port is accumulated from the suffix in wrapping
32-bit arithmetic, so when the suffix consists solely of decimal digits the
port is its decimal value reduced modulo `2 ^ 32`; an input without `':'`
yields the whole string as host with port `0`. -/
theorem splitHostPort_behavior (pre suf : List Char) (s : String) :
    (':' ∉ suf →
        splitHostPort (String.mk (pre ++ ':' :: suf)) =
          (String.mk pre, parsePortGo suf))
  ∧ (':' ∉ s.data → splitHostPort s = (s, 0))
  ∧ ((∀ c ∈ suf, 48 ≤ c.toNat ∧ c.toNat ≤ 57) →
        parsePortGo suf = decimalValue suf % u32) := by
  refine ⟨?_, ?_, parsePortGo_digits suf⟩
  · intro hs
    unfold splitHostPort
    rw [show (String.mk (pre ++ ':' :: suf)).data = pre ++ ':' :: suf
          from rfl,
        rsplitColon_last suf hs pre]
  · intro hs
    unfold splitHostPort
    rw [rsplitColon_eq_none hs]

/-- C8 witness: on host `web-a` with digit suffix `5678` the split returns
the host and the decimal port; a colon-free input keeps the whole string
with port `0`. -/
theorem splitHostPort_behavior_witness :
    splitHostPort (String.mk ("web-a".data ++ ':' :: "5678".data)) =
      (String.mk "web-a".data, parsePortGo "5678".data)
  ∧ splitHostPort "nocolon" = ("nocolon", 0)
  ∧ parsePortGo "5678".data = decimalValue "5678".data % u32 :=
  ⟨(splitHostPort_behavior "web-a".data "5678".data "nocolon").1 (by decide),
   (splitHostPort_behavior "web-a".data "5678".data "nocolon").2.1
     (by decide),
   (splitHostPort_behavior "web-a".data "5678".data "nocolon").2.2
     (by decide)⟩

end Envoyage
